import Mathlib

/-!
Verification of the algorithmic core of the beidou-edu-server backend:
the SM-2 spaced-repetition scheduler (`spaced_repetition.py`), the
adaptive difficulty selector (`adaptive_learner.py`), and the PvP
rating / tier / season / matchmaking engine (`pvp_system.py`,
`pvp_api.py`).  Python floats are idealised as exact rationals (`ℚ`)
where the code only adds, multiplies, compares and clamps, and as real
numbers (`ℝ`) where `math.exp` / `10 ** x` enter.  Python's `int()`
truncation and `round()` (banker's rounding, half to even) are embedded
explicitly below.
-/

namespace BeidouEdu

/-- Python `int(q)` on a rational value: truncation toward zero. -/
def pyTrunc (q : ℚ) : ℤ := if 0 ≤ q then ⌊q⌋ else ⌈q⌉

/-- Python `round(x)` on a real value: round half to even (banker's
rounding).  Off ties it is rounding to the nearest integer. -/
noncomputable def pythonRound (x : ℝ) : ℤ :=
  if Int.fract x < 1 / 2 then ⌊x⌋
  else if Int.fract x = 1 / 2 then (if Even ⌊x⌋ then ⌊x⌋ else ⌊x⌋ + 1)
  else ⌊x⌋ + 1

/-- Python `round(x, 1)`: rounding to one decimal place. -/
noncomputable def roundTo1 (x : ℝ) : ℝ := (pythonRound (10 * x) : ℝ) / 10

/-- Python `round(x, 2)`: rounding to two decimal places. -/
noncomputable def roundTo2 (x : ℝ) : ℝ := (pythonRound (100 * x) : ℝ) / 100

/-- `pythonRound` is at distance at most `1/2` from its argument. -/
theorem abs_pythonRound_sub_le (x : ℝ) : |(pythonRound x : ℝ) - x| ≤ 1 / 2 := by
  have h0 : (0 : ℝ) ≤ Int.fract x := Int.fract_nonneg x
  have h1 : Int.fract x < 1 := Int.fract_lt_one x
  have hfl : (⌊x⌋ : ℝ) = x - Int.fract x := by
    unfold Int.fract; ring
  unfold pythonRound
  split_ifs with hlt heq hev <;>
    · rw [abs_le]
      constructor <;> · push_cast [hfl] ; first | linarith [heq] | linarith

/-! ## SM-2 spaced-repetition scheduler (`src/spaced_repetition.py`) -/

/-- A review card (`ReviewCard` dataclass).  The identifier fields
(`card_id`, `user_id`, `question_id`, `cert_id`) are opaque strings,
floats are idealised as `ℚ`, and timestamps are whole days (`ℤ`);
`process_review` never reads the identifiers. -/
structure ReviewCard where
  card_id : String
  user_id : String
  question_id : String
  cert_id : String
  easiness : ℚ
  interval : ℤ
  repetitions : ℕ
  next_review : Option ℤ
  last_review : Option ℤ
  total_reviews : ℕ
  correct_count : ℕ
deriving DecidableEq, Repr

/-- A fresh card as built by `get_or_create_card`: easiness `2.5`,
interval `1`, `repetitions = 0`, counters `0`, next review now. -/
def freshCard (uid qid cid : String) (now : ℤ) : ReviewCard :=
  { card_id := uid ++ ":" ++ qid, user_id := uid, question_id := qid,
    cert_id := cid, easiness := 2.5, interval := 1, repetitions := 0,
    next_review := some now, last_review := none,
    total_reviews := 0, correct_count := 0 }

/-- `SM2Engine.process_review(card, quality)`: the SM-2 update.  Counters
first, then the repetition/interval branch (using the pre-update
easiness; `int()` truncates), then the easiness update clamped below at
`MIN_EASINESS = 1.3`, then the review timestamps (`now` in days). -/
def processReview (card : ReviewCard) (quality : ℤ) (now : ℤ) : ReviewCard :=
  let card1 := { card with
    total_reviews := card.total_reviews + 1,
    correct_count := if 3 ≤ quality then card.correct_count + 1 else card.correct_count }
  let card2 :=
    if quality < 3 then
      { card1 with repetitions := 0, interval := 1 }
    else
      let reps := card1.repetitions + 1
      { card1 with
        repetitions := reps
        interval :=
          if reps = 1 then 1
          else if reps = 2 then 6
          else pyTrunc ((card1.interval : ℚ) * card1.easiness) }
  let card3 := { card2 with
    easiness := max 1.3 (card2.easiness +
      (0.1 - (5 - (quality : ℚ)) * (0.08 + (5 - (quality : ℚ)) * 0.02))) }
  { card3 with last_review := some now, next_review := some (now + card3.interval) }

/-- `SM2Engine.predict_retention(card, days_since_review)`: the read-only
forgetting-curve estimate.  The decay constant is
`max (interval * easiness / 2.5) 1` — the code clamps the stability
divisor up to `1` — and the result is a percentage rounded to one
decimal place. -/
noncomputable def predictRetention (card : ReviewCard) (daysSinceReview : ℤ) : ℝ :=
  if card.interval = 0 then 0
  else
    roundTo1 (Real.exp (-(daysSinceReview : ℝ) /
      max ((card.interval : ℝ) * ((card.easiness : ℝ) / 2.5)) 1) * 100)

/-- A concrete card about to enter its third repetition, used to separate
truncation from rounding in `process_review`. -/
def truncationCard : ReviewCard :=
  { card_id := "u:q", user_id := "u", question_id := "q", cert_id := "c",
    easiness := 2.46, interval := 6, repetitions := 2,
    next_review := none, last_review := none,
    total_reviews := 4, correct_count := 3 }

/-- Lifetime review counter always increments. -/
theorem processReview_total_reviews (card : ReviewCard) (q now : ℤ) :
    (processReview card q now).total_reviews = card.total_reviews + 1 := by
  simp only [processReview]
  split_ifs <;> rfl

/-- On a passing review the repetition counter increments. -/
theorem processReview_repetitions_pass (card : ReviewCard) (q now : ℤ)
    (h : ¬ q < 3) :
    (processReview card q now).repetitions = card.repetitions + 1 := by
  simp only [processReview, if_neg h]

/-- On a failing review the repetition counter resets to `0`. -/
theorem processReview_repetitions_fail (card : ReviewCard) (q now : ℤ)
    (h : q < 3) :
    (processReview card q now).repetitions = 0 := by
  simp only [processReview, if_pos h]

/-- On a failing review the interval resets to `1`. -/
theorem processReview_interval_fail (card : ReviewCard) (q now : ℤ)
    (h : q < 3) :
    (processReview card q now).interval = 1 := by
  simp only [processReview, if_pos h]

/-- On a passing review the correct counter increments. -/
theorem processReview_correct_pass (card : ReviewCard) (q now : ℤ)
    (h : 3 ≤ q) :
    (processReview card q now).correct_count = card.correct_count + 1 := by
  simp only [processReview, if_pos h]
  split_ifs <;> rfl

/-- On a failing review the correct counter is unchanged. -/
theorem processReview_correct_fail (card : ReviewCard) (q now : ℤ)
    (h : ¬ 3 ≤ q) :
    (processReview card q now).correct_count = card.correct_count := by
  simp only [processReview, if_neg h]
  split_ifs <;> rfl

/-- On a passing review the interval follows the SM-2 schedule, with the
third and later steps using `int()`-truncation of
pre-interval × pre-easiness. -/
theorem processReview_interval_pass (card : ReviewCard) (q now : ℤ)
    (h : ¬ q < 3) :
    (processReview card q now).interval =
      if card.repetitions + 1 = 1 then 1
      else if card.repetitions + 1 = 2 then 6
      else pyTrunc ((card.interval : ℚ) * card.easiness) := by
  simp only [processReview, if_neg h]

/-- Claim C1 is false as stated: for the third and later repetitions
`process_review` computes `int(interval * easiness)`, which truncates,
not `round(interval * easiness)`.  On a card with `interval = 6`,
`easiness = 2.46`, `repetitions = 2`, a quality-4 review stores interval
`int(14.76) = 14`, while the claimed `round(14.76)` is `15`. -/
theorem C1_counterexample :
    (processReview truncationCard 4 0).interval ≠
      round ((truncationCard.interval : ℚ) * truncationCard.easiness) := by
  have h1 : (processReview truncationCard 4 0).interval = 14 := by
    rw [processReview_interval_pass truncationCard 4 0 (by omega)]
    norm_num [truncationCard, pyTrunc]
  have h2 : round ((truncationCard.interval : ℚ) * truncationCard.easiness) = 15 := by
    rw [round_eq]
    norm_num [truncationCard]
  rw [h1, h2]
  omega

/-- Claim C1 (amended): a passing review (`quality ≥ 3`) that brings the
repetition count to 3 or more sets the interval to
`int(interval * easiness)` — truncation of the product of the card's
pre-review interval and pre-update easiness — and to `1` resp. `6` when
the repetition count becomes 1 resp. 2. -/
theorem C1_interval_update (card : ReviewCard) (quality now : ℤ)
    (h3 : 3 ≤ quality) :
    (3 ≤ card.repetitions + 1 →
      (processReview card quality now).interval =
        pyTrunc ((card.interval : ℚ) * card.easiness))
    ∧ (card.repetitions = 0 → (processReview card quality now).interval = 1)
    ∧ (card.repetitions = 1 → (processReview card quality now).interval = 6) := by
  have hq : ¬ quality < 3 := by omega
  rw [processReview_interval_pass card quality now hq]
  refine ⟨fun h => ?_, fun h => ?_, fun h => ?_⟩ <;>
    split_ifs <;> first | rfl | omega

/-- Witness for `C1_interval_update` on the concrete card with
`repetitions = 2`, `interval = 6`, `easiness = 2.46` and a quality-4
review. -/
theorem C1_interval_update_witness :
    (3 ≤ truncationCard.repetitions + 1 →
      (processReview truncationCard 4 0).interval =
        pyTrunc ((truncationCard.interval : ℚ) * truncationCard.easiness))
    ∧ (truncationCard.repetitions = 0 → (processReview truncationCard 4 0).interval = 1)
    ∧ (truncationCard.repetitions = 1 → (processReview truncationCard 4 0).interval = 6) :=
  C1_interval_update truncationCard 4 0 (by omega)

/-- Claim C7 is false as stated: `process_review` performs no validation
of the quality grade.  A quality-6 review of a fresh card is processed
(the card changes), rather than rejected with the card left unchanged. -/
theorem C7_counterexample :
    processReview (freshCard "u" "q" "c" 0) 6 0 ≠ freshCard "u" "q" "c" 0 := by
  intro he
  have h := congrArg ReviewCard.total_reviews he
  rw [processReview_total_reviews] at h
  omega

/-- Claim C7 (amended): `process_review` neither rejects nor clamps
out-of-range quality grades; any integer quality runs through the same
formulas.  Quality above 5 is treated as a pass (repetition and correct
counters increment); negative quality is treated as a fail (repetitions
reset, interval reset to 1).  In both cases the card is mutated. -/
theorem C7_no_validation (card : ReviewCard) (quality now : ℤ)
    (h : quality < 0 ∨ 5 < quality) :
    processReview card quality now ≠ card
    ∧ (processReview card quality now).total_reviews = card.total_reviews + 1
    ∧ (5 < quality →
        (processReview card quality now).repetitions = card.repetitions + 1
        ∧ (processReview card quality now).correct_count = card.correct_count + 1)
    ∧ (quality < 0 →
        (processReview card quality now).repetitions = 0
        ∧ (processReview card quality now).interval = 1
        ∧ (processReview card quality now).correct_count = card.correct_count) := by
  have htot := processReview_total_reviews card quality now
  refine ⟨fun he => ?_, htot, fun h5 => ?_, fun h0 => ?_⟩
  · rw [he] at htot; omega
  · exact ⟨processReview_repetitions_pass card quality now (by omega),
      processReview_correct_pass card quality now (by omega)⟩
  · exact ⟨processReview_repetitions_fail card quality now (by omega),
      processReview_interval_fail card quality now (by omega),
      processReview_correct_fail card quality now (by omega)⟩

/-! ## PvP rank tiers (`src/pvp_system.py`, `RANK_THRESHOLDS`,
`LeaderboardManager._get_tier`, `check_rank_change`) -/

/-- The `RankTier` enum, in declaration order. -/
inductive RankTier where
  | bronze | silver | gold | platinum | diamond | master | grandmaster
deriving DecidableEq, Repr

/-- The `RANK_THRESHOLDS` table. -/
def rankThreshold : RankTier → ℤ
  | .bronze => 0
  | .silver => 1200
  | .gold => 1400
  | .platinum => 1600
  | .diamond => 1800
  | .master => 2000
  | .grandmaster => 2200

/-- `list(RankTier)` in Python declaration order. -/
def tierList : List RankTier :=
  [.bronze, .silver, .gold, .platinum, .diamond, .master, .grandmaster]

/-- `LeaderboardManager._get_tier` (identical to
`SeasonManager._get_rank_tier`): walk the tiers from highest to lowest
and return the first whose threshold is at most the rating, defaulting
to bronze. -/
def getTier (rating : ℤ) : RankTier :=
  match tierList.reverse.find? (fun t => rankThreshold t ≤ rating) with
  | some t => t
  | none => .bronze

/-- The record inserted into `pvp_rank_history` and returned by
`check_rank_change` (database write and icon field omitted). -/
structure RankChange where
  old_tier : RankTier
  new_tier : RankTier
  change_type : String
deriving DecidableEq, Repr

/-- `LeaderboardManager.check_rank_change`: emit an event only when the
tier computed from the old and new rating differs, marking it a
promotion exactly when the new tier's threshold is larger. -/
def checkRankChange (oldRating newRating : ℤ) : Option RankChange :=
  let oldT := getTier oldRating
  let newT := getTier newRating
  if oldT = newT then none
  else some
    { old_tier := oldT
      new_tier := newT
      change_type :=
        if rankThreshold newT > rankThreshold oldT then "promote" else "demote" }

/-- The tier function as the spec words it: the highest-threshold tier
whose minimum rating is at most the rating (for nonnegative ratings the
final bronze branch is the `0 ≤ r` case). -/
def specTier (r : ℤ) : RankTier :=
  if 2200 ≤ r then .grandmaster
  else if 2000 ≤ r then .master
  else if 1800 ≤ r then .diamond
  else if 1600 ≤ r then .platinum
  else if 1400 ≤ r then .gold
  else if 1200 ≤ r then .silver
  else .bronze

/-- The code's reversed-scan tier lookup agrees with the spec's
highest-threshold-first description on every integer rating. -/
theorem getTier_eq_specTier (r : ℤ) : getTier r = specTier r := by
  unfold getTier specTier tierList
  by_cases h1 : 2200 ≤ r <;> by_cases h2 : 2000 ≤ r <;> by_cases h3 : 1800 ≤ r <;>
    by_cases h4 : 1600 ≤ r <;> by_cases h5 : 1400 ≤ r <;> by_cases h6 : 1200 ≤ r <;>
    by_cases h7 : 0 ≤ r <;>
    first
      | omega
      | simp [List.find?, List.reverse, rankThreshold, h1, h2, h3, h4, h5, h6, h7]

/-- Distinct tiers have distinct thresholds. -/
theorem rankThreshold_injective (a b : RankTier) (h : rankThreshold a = rankThreshold b) :
    a = b := by
  revert h
  cases a <;> cases b <;> decide

/-- For nonnegative ratings, `specTier r` is the greatest-threshold tier
whose threshold is at most `r`. -/
theorem specTier_greatest (r : ℤ) (h : 0 ≤ r) :
    rankThreshold (specTier r) ≤ r ∧
      ∀ t, rankThreshold t ≤ r → rankThreshold t ≤ rankThreshold (specTier r) := by
  unfold specTier
  split_ifs <;>
    exact ⟨by simp [rankThreshold]; omega,
      fun t => by cases t <;> simp [rankThreshold] <;> omega⟩

/-- Claim C5: `check_rank_change` emits an event iff the tier of the old
rating differs from the tier of the new rating, where the tier of `r` is
the highest-threshold tier with threshold at most `r`; the event is a
promotion exactly when the new tier's threshold is higher, a demotion
otherwise. -/
theorem C5_rank_change (oldR newR : ℤ) (hold : 0 ≤ oldR) (hnew : 0 ≤ newR) :
    ((checkRankChange oldR newR).isSome ↔ getTier oldR ≠ getTier newR)
    ∧ (rankThreshold (getTier oldR) ≤ oldR ∧
        ∀ t, rankThreshold t ≤ oldR → rankThreshold t ≤ rankThreshold (getTier oldR))
    ∧ (rankThreshold (getTier newR) ≤ newR ∧
        ∀ t, rankThreshold t ≤ newR → rankThreshold t ≤ rankThreshold (getTier newR))
    ∧ ∀ c, checkRankChange oldR newR = some c →
        c.old_tier = getTier oldR ∧ c.new_tier = getTier newR
        ∧ (c.change_type = "promote" ↔
            rankThreshold (getTier oldR) < rankThreshold (getTier newR))
        ∧ (c.change_type = "demote" ↔
            rankThreshold (getTier newR) < rankThreshold (getTier oldR)) := by
  refine ⟨?_, ?_, ?_, ?_⟩
  · simp only [checkRankChange]
    split_ifs with h <;> simp [h]
  · rw [getTier_eq_specTier]; exact specTier_greatest oldR hold
  · rw [getTier_eq_specTier]; exact specTier_greatest newR hnew
  · intro c hc
    simp only [checkRankChange] at hc
    split_ifs at hc with h hgt
    · rcases Option.some_injective _ hc with rfl
      exact ⟨rfl, rfl, iff_of_true rfl hgt,
        iff_of_false (by decide : ¬ ("promote" : String) = "demote") (by omega)⟩
    · rcases Option.some_injective _ hc with rfl
      have hne : rankThreshold (getTier oldR) ≠ rankThreshold (getTier newR) :=
        fun he => h (rankThreshold_injective _ _ he)
      exact ⟨rfl, rfl,
        iff_of_false (by decide : ¬ ("demote" : String) = "promote") (by omega),
        iff_of_true rfl (by omega)⟩

/-- Witness for `C5_rank_change`: the bronze→silver boundary crossing
1190 → 1210. -/
theorem C5_rank_change_witness :
    ((checkRankChange 1190 1210).isSome ↔ getTier 1190 ≠ getTier 1210)
    ∧ (rankThreshold (getTier 1190) ≤ 1190 ∧
        ∀ t, rankThreshold t ≤ 1190 → rankThreshold t ≤ rankThreshold (getTier 1190))
    ∧ (rankThreshold (getTier 1210) ≤ 1210 ∧
        ∀ t, rankThreshold t ≤ 1210 → rankThreshold t ≤ rankThreshold (getTier 1210))
    ∧ ∀ c, checkRankChange 1190 1210 = some c →
        c.old_tier = getTier 1190 ∧ c.new_tier = getTier 1210
        ∧ (c.change_type = "promote" ↔
            rankThreshold (getTier 1190) < rankThreshold (getTier 1210))
        ∧ (c.change_type = "demote" ↔
            rankThreshold (getTier 1210) < rankThreshold (getTier 1190)) :=
  C5_rank_change 1190 1210 (by omega) (by omega)

/-! ## Season rewards (`src/pvp_system.py`, `SeasonManager.claim_rewards`) -/

/-- A row of the `pvp_player_season` table. -/
structure SeasonRecord where
  player_id : ℤ
  season_id : String
  final_rating : ℤ
  final_rank : String
  wins : ℤ
  losses : ℤ
  max_rating : ℤ
  rewards_claimed : Bool
deriving DecidableEq, Repr

/-- Predicate for rows hit by the claim UPDATE: same player, same
season, rewards not claimed yet. -/
def claimTargets (sid : String) (pid : ℤ) (r : SeasonRecord) : Prop :=
  r.player_id = pid ∧ r.season_id = sid ∧ r.rewards_claimed = false

instance (sid : String) (pid : ℤ) (r : SeasonRecord) :
    Decidable (claimTargets sid pid r) := by
  unfold claimTargets; infer_instance

/-- `SeasonManager.claim_rewards(season_id, player_id)`: runs
`UPDATE pvp_player_season SET rewards_claimed = 1 WHERE player_id = ?
AND season_id = ? AND rewards_claimed = 0` and reports success iff the
row count is positive. -/
def claimRewards (table : List SeasonRecord) (sid : String) (pid : ℤ) :
    Bool × List SeasonRecord :=
  (decide (∃ r ∈ table, claimTargets sid pid r),
   table.map (fun r => if claimTargets sid pid r then { r with rewards_claimed := true } else r))

/-- Claim C6: claiming is exactly-once.  From a table holding an
unclaimed season record for `(pid, sid)`, the first `claim_rewards`
succeeds and marks every matching record claimed, and a second
`claim_rewards` for the same pair fails and leaves the stored table
completely unchanged. -/
theorem C6_claim_exactly_once (table : List SeasonRecord) (sid : String) (pid : ℤ)
    (h : ∃ r ∈ table, claimTargets sid pid r) :
    (claimRewards table sid pid).1 = true
    ∧ (∀ r ∈ (claimRewards table sid pid).2,
        r.player_id = pid → r.season_id = sid → r.rewards_claimed = true)
    ∧ claimRewards (claimRewards table sid pid).2 sid pid =
        (false, (claimRewards table sid pid).2) := by
  refine ⟨by simpa [claimRewards] using h, ?_, ?_⟩
  · intro r hr hp hs
    simp only [claimRewards, List.mem_map] at hr
    obtain ⟨r0, hr0, hr0eq⟩ := hr
    by_cases ht : claimTargets sid pid r0
    · rw [if_pos ht] at hr0eq; rw [← hr0eq]
    · rw [if_neg ht] at hr0eq
      rw [← hr0eq] at hp hs ⊢
      cases hb : r0.rewards_claimed with
      | false => exact absurd ⟨hp, hs, hb⟩ ht
      | true => rfl
  · set t1 := (claimRewards table sid pid).2 with ht1
    have hnone : ∀ r ∈ t1, ¬ claimTargets sid pid r := by
      intro r hr ht
      rw [ht1] at hr
      simp only [claimRewards, List.mem_map] at hr
      obtain ⟨r0, hr0, hr0eq⟩ := hr
      by_cases ht0 : claimTargets sid pid r0
      · rw [if_pos ht0] at hr0eq
        rw [← hr0eq] at ht
        simpa using ht.2.2
      · rw [if_neg ht0] at hr0eq
        exact ht0 (hr0eq ▸ ht)
    have hfst : decide (∃ r ∈ t1, claimTargets sid pid r) = false :=
      decide_eq_false_iff_not.mpr (fun ⟨r, hr, ht⟩ => hnone r hr ht)
    have hsnd : t1.map
        (fun r => if claimTargets sid pid r then { r with rewards_claimed := true } else r)
        = t1 :=
      (List.map_congr_left (fun r hr => if_neg (hnone r hr))).trans (List.map_id t1)
    show claimRewards t1 sid pid = (false, t1)
    simp only [claimRewards]
    rw [hfst, hsnd]

/-- A one-row season table with an unclaimed gold-tier record. -/
def seasonRow : SeasonRecord :=
  { player_id := 7
    season_id := "S1"
    final_rating := 1450
    final_rank := "gold"
    wins := 10
    losses := 4
    max_rating := 1500
    rewards_claimed := false }

/-- Witness for `C6_claim_exactly_once` on a one-row table. -/
theorem C6_claim_exactly_once_witness :
    (claimRewards [seasonRow] "S1" 7).1 = true
    ∧ (∀ r ∈ (claimRewards [seasonRow] "S1" 7).2,
        r.player_id = 7 → r.season_id = "S1" → r.rewards_claimed = true)
    ∧ claimRewards (claimRewards [seasonRow] "S1" 7).2 "S1" 7 =
        (false, (claimRewards [seasonRow] "S1" 7).2) :=
  C6_claim_exactly_once [seasonRow] "S1" 7
    ⟨seasonRow, List.mem_singleton_self _, rfl, rfl, rfl⟩

/-- Witness for `C7_no_validation`: quality 6 on a fresh card. -/
theorem C7_no_validation_witness :
    processReview (freshCard "u" "q" "c" 0) 6 0 ≠ freshCard "u" "q" "c" 0
    ∧ (processReview (freshCard "u" "q" "c" 0) 6 0).total_reviews =
        (freshCard "u" "q" "c" 0).total_reviews + 1
    ∧ ((5:ℤ) < 6 →
        (processReview (freshCard "u" "q" "c" 0) 6 0).repetitions =
          (freshCard "u" "q" "c" 0).repetitions + 1
        ∧ (processReview (freshCard "u" "q" "c" 0) 6 0).correct_count =
          (freshCard "u" "q" "c" 0).correct_count + 1)
    ∧ ((6:ℤ) < 0 →
        (processReview (freshCard "u" "q" "c" 0) 6 0).repetitions = 0
        ∧ (processReview (freshCard "u" "q" "c" 0) 6 0).interval = 1
        ∧ (processReview (freshCard "u" "q" "c" 0) 6 0).correct_count =
          (freshCard "u" "q" "c" 0).correct_count) :=
  C7_no_validation (freshCard "u" "q" "c" 0) 6 0 (Or.inr (by omega))

/-! ## Matchmaking (`src/pvp_system.py`, `MatchMaker`) -/

/-- A row of the `pvp_queue` table.  `queue_time` is an absolute time in
seconds (`ℚ`, idealising the fractional-second timestamps). -/
structure QueueEntry where
  player_id : ℤ
  status : String
  rating : ℤ
  queue_time : ℚ
  elo_range : ℤ
deriving DecidableEq, Repr

/-- A row of the `pvp_bots` table. -/
structure Bot where
  bot_id : ℤ
  rating : ℤ
  active : Bool
deriving DecidableEq, Repr

/-- The matchmaking state: the queue and bot tables (the matchmaking
log is informational only and omitted). -/
structure MMState where
  queue : List QueueEntry
  bots : List Bot
deriving DecidableEq, Repr

/-- The `MatchResult` dataclass. -/
structure MatchResult where
  player1_id : ℤ
  player2_id : ℤ
  rating_diff : ℤ
  wait_time : ℤ
  is_bot : Bool
  quality_score : ℚ
deriving DecidableEq, Repr

/-- First element minimising `f`, modelling SQLite
`ORDER BY f ASC LIMIT 1` (ties resolved by row order). -/
def argminBy (f : α → ℤ) : List α → Option α
  | [] => none
  | a :: l =>
    match argminBy f l with
    | none => some a
    | some b => if f a ≤ f b then some a else some b

/-- `MatchMaker._calc_quality(rating_diff, wait_time, is_bot)`:
match-quality score, floored at 0. -/
def calcQuality (ratingDiff : ℤ) (waitTime : ℚ) (isBot : Bool) : ℚ :=
  max 0 (100 - min ((ratingDiff : ℚ) / 10) 50 - min (waitTime / 2) 25 -
    (if isBot then 15 else 0))

/-- `MatchMaker._match_with_bot`: pick the active bot with the closest
rating (default bot 9001 with rating 1200 if none), delete the player's
queue rows, and return a bot-flagged match. -/
def matchWithBot (s : MMState) (pid : ℤ) (playerRating : ℤ) (waitSeconds : ℚ) :
    Option MatchResult × MMState :=
  let best := argminBy (fun b => |b.rating - playerRating|) (s.bots.filter (fun b => b.active))
  let botId := (best.map Bot.bot_id).getD 9001
  let botRating := (best.map Bot.rating).getD 1200
  let ratingDiff := |playerRating - botRating|
  (some
    { player1_id := pid
      player2_id := botId
      rating_diff := ratingDiff
      wait_time := pyTrunc waitSeconds
      is_bot := true
      quality_score := calcQuality ratingDiff waitSeconds true },
   { s with queue := s.queue.filter (fun e => e.player_id ≠ pid) })

/-- The opponent filter of `find_match`'s SQL query: a different,
waiting player whose rating is within the current search radius. -/
def eligibleOpponent (pid rating range : ℤ) (e : QueueEntry) : Prop :=
  e.player_id ≠ pid ∧ e.status = "waiting" ∧ |e.rating - rating| ≤ range

instance (pid rating range : ℤ) (e : QueueEntry) :
    Decidable (eligibleOpponent pid rating range e) := by
  unfold eligibleOpponent; infer_instance

/-- `MatchMaker.find_match(player_id)`.  Returns `None` and leaves the
state untouched when the player has no queue row; otherwise widens the
search radius with wait time (`min(200 + int(wait/10)*50, 500)`), pairs
with the closest eligible human and removes both from the queue, falls
back to a bot once the wait reaches `max_wait_time = 30`, and otherwise
stores the widened radius and reports no match yet. -/
def findMatch (s : MMState) (now : ℚ) (pid : ℤ) : Option MatchResult × MMState :=
  match s.queue.find? (fun e => e.player_id = pid) with
  | none => (none, s)
  | some e =>
    let waitSeconds := now - e.queue_time
    let currentRange : ℤ := min (200 + pyTrunc (waitSeconds / 10) * 50) 500
    match argminBy (fun o => |o.rating - e.rating|)
        (s.queue.filter (fun o => eligibleOpponent pid e.rating currentRange o)) with
    | some opp =>
        let ratingDiff := |e.rating - opp.rating|
        (some
          { player1_id := pid
            player2_id := opp.player_id
            rating_diff := ratingDiff
            wait_time := pyTrunc waitSeconds
            is_bot := false
            quality_score := calcQuality ratingDiff waitSeconds false },
         { s with queue :=
            s.queue.filter (fun o => o.player_id ≠ pid ∧ o.player_id ≠ opp.player_id) })
    | none =>
      if 30 ≤ waitSeconds then
        matchWithBot s pid e.rating waitSeconds
      else
        let widened := s.queue.map
          (fun o => if o.player_id = pid then { o with elo_range := currentRange } else o)
        (none, { s with queue := widened })

/-- When the player is queued, no opponent passes the radius filter, and
the wait is still below `max_wait_time`, `find_match` reports no match
yet (`None`). -/
theorem findMatch_no_match_yet (s : MMState) (now : ℚ) (pid : ℤ) (e : QueueEntry)
    (hfind : s.queue.find? (fun o => o.player_id = pid) = some e)
    (hnoopp : s.queue.filter (fun o => eligibleOpponent pid e.rating
        (min (200 + pyTrunc ((now - e.queue_time) / 10) * 50) 500) o) = [])
    (hwait : ¬ 30 ≤ now - e.queue_time) :
    (findMatch s now pid).1 = none := by
  unfold findMatch
  rw [hfind]
  dsimp only
  rw [hnoopp]
  dsimp only [argminBy]
  rw [if_neg hwait]

/-- When the player is queued, no opponent passes the radius filter, and
the wait has reached `max_wait_time`, `find_match` falls through to
`_match_with_bot`. -/
theorem findMatch_bot_fallback (s : MMState) (now : ℚ) (pid : ℤ) (e : QueueEntry)
    (hfind : s.queue.find? (fun o => o.player_id = pid) = some e)
    (hnoopp : s.queue.filter (fun o => eligibleOpponent pid e.rating
        (min (200 + pyTrunc ((now - e.queue_time) / 10) * 50) 500) o) = [])
    (hwait : 30 ≤ now - e.queue_time) :
    findMatch s now pid = matchWithBot s pid e.rating (now - e.queue_time) := by
  unfold findMatch
  rw [hfind]
  dsimp only
  rw [hnoopp]
  dsimp only [argminBy]
  rw [if_pos hwait]

/-- A queue entry for player 2 (rating 1500, enqueued at time 0). -/
def lonelyEntry : QueueEntry :=
  { player_id := 2
    status := "waiting"
    rating := 1500
    queue_time := 0
    elo_range := 200 }

/-- A queue state holding exactly one waiting player (id 2, rating 1500,
enqueued at time 0) and no bots. -/
def lonelyQueueState : MMState :=
  { queue := [lonelyEntry]
    bots := [] }

/-- Claim C9 is false as stated: at time 5, `find_match` for unqueued
player 1 (missing queue entry) and `find_match` for queued player 2
(no eligible opponent, wait below the maximum) both return `None`; the
caller-contract error is not distinguishable from the no-match-yet
result. -/
theorem C9_counterexample :
    (findMatch lonelyQueueState 5 1).1 = (findMatch lonelyQueueState 5 2).1
    ∧ (findMatch lonelyQueueState 5 1).1 = none
    ∧ (findMatch lonelyQueueState 5 2).1 = none := by
  have h1 : (findMatch lonelyQueueState 5 1).1 = none := rfl
  have h2 : (findMatch lonelyQueueState 5 2).1 = none :=
    findMatch_no_match_yet lonelyQueueState 5 2 lonelyEntry rfl rfl (by norm_num [lonelyEntry])
  exact ⟨h1.trans h2.symm, h1, h2⟩

/-- Claim C9 (amended): `find_match` for a player with no queue entry
returns `None` and leaves the state untouched — the same `None` the
no-match-yet path returns for a queued player, so the two cases are not
distinguishable from the result. -/
theorem C9_missing_entry (s : MMState) (now : ℚ) (pid : ℤ)
    (h : s.queue.find? (fun o => o.player_id = pid) = none) :
    findMatch s now pid = (none, s) := by
  unfold findMatch
  rw [h]

/-- Witness for `C9_missing_entry`: player 1 is not in the one-entry
queue. -/
theorem C9_missing_entry_witness :
    findMatch lonelyQueueState 5 1 = (none, lonelyQueueState) :=
  C9_missing_entry lonelyQueueState 5 1 rfl

/-- Claim C10: once the wait reaches 30 seconds and no eligible human
opponent is in the queue, `find_match` always returns a bot-flagged
match (never no-match-yet), removes the player from the queue, and
falls back to the default bot 9001 with rating 1200 when no active bot
record exists. -/
theorem C10_bot_match (s : MMState) (now : ℚ) (pid : ℤ) (e : QueueEntry)
    (hfind : s.queue.find? (fun o => o.player_id = pid) = some e)
    (hnoopp : s.queue.filter (fun o => eligibleOpponent pid e.rating
        (min (200 + pyTrunc ((now - e.queue_time) / 10) * 50) 500) o) = [])
    (hwait : 30 ≤ now - e.queue_time) :
    ∃ m : MatchResult,
      (findMatch s now pid).1 = some m
      ∧ m.is_bot = true
      ∧ m.player1_id = pid
      ∧ (∀ o ∈ (findMatch s now pid).2.queue, o.player_id ≠ pid)
      ∧ (s.bots.filter (fun b => b.active) = [] →
          m.player2_id = 9001 ∧ m.rating_diff = |e.rating - 1200|) := by
  rw [findMatch_bot_fallback s now pid e hfind hnoopp hwait]
  unfold matchWithBot
  refine ⟨_, rfl, rfl, rfl, ?_, ?_⟩
  · intro o ho
    have := List.of_mem_filter ho
    simpa using this
  · intro hb
    rw [hb]
    exact ⟨rfl, rfl⟩

/-- Witness for `C10_bot_match`: the lone player 2 at time 30 with an
empty bot table. -/
theorem C10_bot_match_witness :
    ∃ m : MatchResult,
      (findMatch lonelyQueueState 30 2).1 = some m
      ∧ m.is_bot = true
      ∧ m.player1_id = 2
      ∧ (∀ o ∈ (findMatch lonelyQueueState 30 2).2.queue, o.player_id ≠ 2)
      ∧ (lonelyQueueState.bots.filter (fun b => b.active) = [] →
          m.player2_id = 9001 ∧ m.rating_diff = |(1500 : ℤ) - 1200|) :=
  C10_bot_match lonelyQueueState 30 2 lonelyEntry rfl rfl (by norm_num [lonelyEntry])

/-! ## Elo rating update (`src/pvp_api.py`, `submit_battle_result`) -/

/-- Expected score of player 1 against player 2:
`e1 = 1 / (1 + 10 ** ((r2 - r1) / 400))`. -/
noncomputable def eloExpected (r1 r2 : ℤ) : ℝ :=
  1 / (1 + (10 : ℝ) ^ (((r2 : ℝ) - (r1 : ℝ)) / 400))

/-- The pair of new ratings computed by `submit_battle_result` with
`K = 32`: `s1 = 1` iff the winner is player 1,
`new_r1 = round(r1 + K*(s1 - e1))` and
`new_r2 = round(r2 + K*((1-s1) - (1-e1)))`. -/
noncomputable def eloUpdate (r1 r2 : ℤ) (winnerIsP1 : Bool) : ℤ × ℤ :=
  let e1 := eloExpected r1 r2
  let s1 : ℝ := if winnerIsP1 then 1 else 0
  (pythonRound ((r1 : ℝ) + 32 * (s1 - e1)),
   pythonRound ((r2 : ℝ) + 32 * ((1 - s1) - (1 - e1))))

/-- Claim C2: for any integer ratings and either winner, the two Elo
rating changes sum to zero within the rounding tolerance of ±1. -/
theorem C2_elo_zero_sum (r1 r2 : ℤ) (w : Bool) :
    |((eloUpdate r1 r2 w).1 - r1) + ((eloUpdate r1 r2 w).2 - r2)| ≤ 1 := by
  have key : ∀ x : ℝ,
      |((pythonRound ((r1 : ℝ) + x) : ℝ) - (r1 : ℝ)) +
        ((pythonRound ((r2 : ℝ) - x) : ℝ) - (r2 : ℝ))| ≤ 1 := by
    intro x
    have h1 := abs_pythonRound_sub_le ((r1 : ℝ) + x)
    have h2 := abs_pythonRound_sub_le ((r2 : ℝ) - x)
    have heq :
        ((pythonRound ((r1 : ℝ) + x) : ℝ) - (r1 : ℝ)) +
            ((pythonRound ((r2 : ℝ) - x) : ℝ) - (r2 : ℝ))
          = ((pythonRound ((r1 : ℝ) + x) : ℝ) - ((r1 : ℝ) + x))
            + ((pythonRound ((r2 : ℝ) - x) : ℝ) - ((r2 : ℝ) - x)) := by
      ring
    rw [heq]
    calc |((pythonRound ((r1 : ℝ) + x) : ℝ) - ((r1 : ℝ) + x))
            + ((pythonRound ((r2 : ℝ) - x) : ℝ) - ((r2 : ℝ) - x))|
        ≤ |(pythonRound ((r1 : ℝ) + x) : ℝ) - ((r1 : ℝ) + x)|
            + |(pythonRound ((r2 : ℝ) - x) : ℝ) - ((r2 : ℝ) - x)| := abs_add _ _
      _ ≤ 1 / 2 + 1 / 2 := add_le_add h1 h2
      _ = 1 := by norm_num
  set x := 32 * ((if w then (1 : ℝ) else 0) - eloExpected r1 r2) with hx
  have hfst : (eloUpdate r1 r2 w).1 = pythonRound ((r1 : ℝ) + x) := by
    rw [hx]
    simp only [eloUpdate]
  have hsnd : (eloUpdate r1 r2 w).2 = pythonRound ((r2 : ℝ) - x) := by
    rw [hx]
    simp only [eloUpdate]
    congr 1
    ring
  have hreal :
      |((((eloUpdate r1 r2 w).1 - r1) + ((eloUpdate r1 r2 w).2 - r2) : ℤ) : ℝ)| ≤ 1 := by
    rw [hfst, hsnd]
    push_cast
    exact key x
  exact_mod_cast hreal

/-! ## Adaptive difficulty selector (`src/adaptive_learner.py`) -/

/-- The `LearnerProfile` dataclass.  The domain-ability dict is an
association list in insertion order; floats are idealised as `ℝ`
(`_predict_accuracy` uses `math.exp`). -/
structure LearnerProfile where
  user_id : String
  cert_id : String
  ability_level : ℝ
  stability : ℝ
  momentum : ℝ
  domain_abilities : List (String × ℝ)
  recent_accuracy : List ℝ
  weak_areas : List String
  strong_areas : List String

/-- The dataclass defaults: ability `0.5`, stability `0.5`, momentum
`0`, empty collections. -/
def defaultLearnerProfile (uid cid : String) : LearnerProfile :=
  { user_id := uid
    cert_id := cid
    ability_level := 0.5
    stability := 0.5
    momentum := 0
    domain_abilities := []
    recent_accuracy := []
    weak_areas := []
    strong_areas := [] }

/-- Python `dict.get(k, d)` on the association list. -/
def lookupD (l : List (String × ℝ)) (k : String) (d : ℝ) : ℝ :=
  ((l.find? (fun q => q.1 = k)).map Prod.snd).getD d

/-- Python `dict[k] = v` on the association list: replace in place or
append. -/
def setKey (l : List (String × ℝ)) (k : String) (v : ℝ) : List (String × ℝ) :=
  if l.any (fun q => q.1 = k) then l.map (fun q => if q.1 = k then (k, v) else q)
  else l ++ [(k, v)]

/-- `AdaptiveLearner._calc_variance`: population variance, `0` on the
empty list. -/
noncomputable def listVariance (l : List ℝ) : ℝ :=
  if l = [] then 0
  else (l.map (fun v => (v - l.sum / l.length) ^ 2)).sum / l.length

/-- Python `l[-n:]`: the last `n` entries. -/
def lastN (n : ℕ) (l : List ℝ) : List ℝ := l.drop (l.length - n)

/-- `AdaptiveLearner._predict_accuracy`: the simplified IRT model
`round(1 / (1 + exp(-(ability*5 - difficulty))), 2)`. -/
noncomputable def predictAccuracy (ability : ℝ) (difficulty : ℤ) : ℝ :=
  roundTo2 (1 / (1 + Real.exp (-(ability * 5 - (difficulty : ℝ)))))

/-- One answer submission: the inputs of `record_answer` that affect the
profile. -/
structure AnswerEvent where
  difficulty : ℤ
  domain_id : String
  is_correct : Bool

/-- `AdaptiveLearner.record_answer`: append the outcome to the recent
window (truncating from the front past `recent_window = 20`), update
ability by `surprise × 0.1` clamped to `[0,1]`, momentum by decay `0.9`
plus `±0.3` clamped to `[-1,1]`, stability from the variance of the last
10 outcomes (once 5 are recorded), the touched domain ability by
`surprise × 0.15` clamped to `[0,1]`, and recompute the weak
(`< 0.5`) / strong (`> 0.8`) domain lists. -/
noncomputable def recordAnswer (p : LearnerProfile) (ev : AnswerEvent) : LearnerProfile :=
  let outcome : ℝ := if ev.is_correct then 1 else 0
  let recent1 := p.recent_accuracy ++ [outcome]
  let recent2 := if 20 < recent1.length then lastN 20 recent1 else recent1
  let expected := predictAccuracy p.ability_level ev.difficulty
  let surprise := outcome - expected
  let ability1 := max 0 (min 1 (p.ability_level + surprise * 0.1))
  let momentum1 := max (-1) (min 1 (p.momentum * 0.9 + (if ev.is_correct then (0.3 : ℝ) else -0.3)))
  let stability1 :=
    if 5 ≤ recent2.length then 1 - min (listVariance (lastN 10 recent2) * 4) 1
    else p.stability
  let domains1 :=
    if ev.domain_id ≠ "" then
      setKey p.domain_abilities ev.domain_id
        (max 0 (min 1 (lookupD p.domain_abilities ev.domain_id 0.5 + surprise * 0.15)))
    else p.domain_abilities
  { p with
    ability_level := ability1
    momentum := momentum1
    stability := stability1
    domain_abilities := domains1
    recent_accuracy := recent2
    weak_areas := (domains1.filter (fun d => d.2 < 0.5)).map Prod.fst
    strong_areas := (domains1.filter (fun d => ¬ d.2 < 0.5 ∧ 0.8 < d.2)).map Prod.fst }

/-- The documented bounds on a learner profile: ability, stability and
every domain ability in `[0,1]`, momentum in `[-1,1]`, and at most
`recent_window = 20` recent outcomes. -/
def learnerInv (p : LearnerProfile) : Prop :=
  0 ≤ p.ability_level ∧ p.ability_level ≤ 1
  ∧ 0 ≤ p.stability ∧ p.stability ≤ 1
  ∧ -1 ≤ p.momentum ∧ p.momentum ≤ 1
  ∧ (∀ d ∈ p.domain_abilities, 0 ≤ d.2 ∧ d.2 ≤ 1)
  ∧ p.recent_accuracy.length ≤ 20

/-- Members of the updated association list are the new pair or old
members. -/
theorem setKey_mem (l : List (String × ℝ)) (k : String) (v : ℝ) :
    ∀ d ∈ setKey l k v, d = (k, v) ∨ d ∈ l := by
  intro d hd
  unfold setKey at hd
  split_ifs at hd
  · obtain ⟨q, hq, hqe⟩ := List.mem_map.mp hd
    by_cases hk : q.1 = k
    · rw [if_pos hk] at hqe
      exact Or.inl hqe.symm
    · rw [if_neg hk] at hqe
      exact Or.inr (hqe ▸ hq)
  · rcases List.mem_append.mp hd with h | h
    · exact Or.inr h
    · exact Or.inl (List.mem_singleton.mp h)

/-- The population variance is nonnegative. -/
theorem listVariance_nonneg (l : List ℝ) : 0 ≤ listVariance l := by
  unfold listVariance
  split_ifs
  · exact le_refl 0
  · apply div_nonneg
    · apply List.sum_nonneg
      intro x hx
      obtain ⟨v, _, hv⟩ := List.mem_map.mp hx
      rw [← hv]
      positivity
    · exact Nat.cast_nonneg _

/-- The stability formula `1 - min(4·variance, 1)` stays nonnegative. -/
theorem one_sub_min_nonneg (v : ℝ) : 0 ≤ 1 - min (v * 4) 1 := by
  have := min_le_right (v * 4) 1
  linarith

/-- The stability formula `1 - min(4·variance, 1)` stays at most one. -/
theorem one_sub_min_le_one (v : ℝ) (hv : 0 ≤ v) : 1 - min (v * 4) 1 ≤ 1 := by
  have : (0 : ℝ) ≤ min (v * 4) 1 := le_min (by linarith) zero_le_one
  linarith

/-- One `record_answer` step preserves the documented bounds. -/
theorem recordAnswer_inv (p : LearnerProfile) (ev : AnswerEvent)
    (h : learnerInv p) : learnerInv (recordAnswer p ev) := by
  obtain ⟨ha0, ha1, hs0, hs1, hm0, hm1, hdom, hlen⟩ := h
  unfold recordAnswer learnerInv
  refine ⟨le_max_left 0 _, max_le (by norm_num) (min_le_left 1 _),
    ?_, ?_, le_max_left (-1) _, max_le (by norm_num) (min_le_left 1 _), ?_, ?_⟩
  · dsimp only
    split_ifs <;>
      first
        | exact hs0
        | exact one_sub_min_nonneg _
  · dsimp only
    split_ifs <;>
      first
        | exact hs1
        | exact one_sub_min_le_one _ (listVariance_nonneg _)
  · dsimp only
    intro d hd
    split_ifs at hd <;>
      first
        | exact hdom d hd
        | exact (setKey_mem _ _ _ d hd).elim
            (fun he => by
              rw [he]
              exact ⟨le_max_left 0 _, max_le (by norm_num) (min_le_left 1 _)⟩)
            (fun hmem => hdom d hmem)
  · dsimp only
    split_ifs <;>
      first
        | (rw [lastN, List.length_drop]; omega)
        | omega

/-- The documented bounds hold along any fold of `record_answer`. -/
theorem recordAnswer_foldl_inv (evs : List AnswerEvent) :
    ∀ p : LearnerProfile, learnerInv p → learnerInv (evs.foldl recordAnswer p) := by
  induction evs with
  | nil => exact fun p h => h
  | cons ev rest ih =>
      exact fun p h => ih (recordAnswer p ev) (recordAnswer_inv p ev h)

/-- A fresh profile satisfies the documented bounds. -/
theorem defaultLearnerProfile_inv (uid cid : String) :
    learnerInv (defaultLearnerProfile uid cid) := by
  unfold learnerInv defaultLearnerProfile
  norm_num

/-- Claim C3: after any finite sequence of `record_answer` calls from a
default profile, ability, stability and every domain ability lie in
`[0,1]`, momentum lies in `[-1,1]`, and the recent-outcome history has
at most 20 entries; moreover each step keeps the history a suffix of
the old history plus the new outcome, so the oldest entries are evicted
first. -/
theorem C3_record_answer_invariants :
    (∀ (uid cid : String) (evs : List AnswerEvent),
      learnerInv (evs.foldl recordAnswer (defaultLearnerProfile uid cid)))
    ∧ ∀ (p : LearnerProfile) (ev : AnswerEvent),
        (recordAnswer p ev).recent_accuracy <:+
          p.recent_accuracy ++ [if ev.is_correct then (1 : ℝ) else 0] := by
  constructor
  · intro uid cid evs
    exact recordAnswer_foldl_inv evs _ (defaultLearnerProfile_inv uid cid)
  · intro p ev
    show (if 20 < (p.recent_accuracy ++ [if ev.is_correct then (1:ℝ) else 0]).length
        then lastN 20 (p.recent_accuracy ++ [if ev.is_correct then (1:ℝ) else 0])
        else p.recent_accuracy ++ [if ev.is_correct then (1:ℝ) else 0]) <:+
      p.recent_accuracy ++ [if ev.is_correct then (1:ℝ) else 0]
    split_ifs <;>
      first
        | exact List.drop_suffix _ _
        | exact List.suffix_refl _

/-- The `SelectionStrategy` enum. -/
inductive SelectionStrategy where
  | balanced | challenge | review | weakFocus
deriving DecidableEq, Repr

/-- Python `int(x)` on a real value: truncation toward zero. -/
noncomputable def pyTruncR (x : ℝ) : ℤ := if 0 ≤ x then ⌊x⌋ else ⌈x⌉

/-- `AdaptiveLearner._calc_target_difficulty`: base
`1 + int(ability * 4)`, then the strategy adjustment (challenge up,
review / weak-focus down, balanced following momentum). -/
noncomputable def calcTargetDifficulty (p : LearnerProfile) (strategy : SelectionStrategy) : ℤ :=
  let baseDiff := 1 + pyTruncR (p.ability_level * 4)
  if strategy = .challenge then min 5 (baseDiff + 1)
  else if strategy = .review then max 1 (baseDiff - 1)
  else if strategy = .weakFocus then max 1 (baseDiff - 1)
  else
    if 0.3 < p.momentum then min 5 (baseDiff + 1)
    else if p.momentum < -0.3 then max 1 (baseDiff - 1)
    else baseDiff

/-- The target difficulty exactly as claim C4 words it: base
`1 + floor(ability * 4)`; challenge `+1` capped at 5; review and
weak-focus `-1` floored at 1; balanced `±1` on momentum beyond `±0.3`
(kept inside `[1,5]`, the claim's stated range). -/
noncomputable def claimTargetDifficulty (ability momentum : ℝ)
    (strategy : SelectionStrategy) : ℤ :=
  let base := 1 + ⌊ability * 4⌋
  match strategy with
  | .challenge => min 5 (base + 1)
  | .review => max 1 (base - 1)
  | .weakFocus => max 1 (base - 1)
  | .balanced =>
      if 0.3 < momentum then min 5 (base + 1)
      else if momentum < -0.3 then max 1 (base - 1)
      else base

/-- Claim C4: for ability in `[0,1]`, momentum in `[-1,1]` and any
strategy, `_calc_target_difficulty` returns an integer in `[1,5]` equal
to the claimed formula (`int()` truncation coincides with `floor` on the
nonnegative `ability * 4`). -/
theorem C4_target_difficulty (p : LearnerProfile) (s : SelectionStrategy)
    (h0 : 0 ≤ p.ability_level) (h1 : p.ability_level ≤ 1)
    (hm0 : -1 ≤ p.momentum) (hm1 : p.momentum ≤ 1) :
    1 ≤ calcTargetDifficulty p s ∧ calcTargetDifficulty p s ≤ 5
    ∧ calcTargetDifficulty p s =
        claimTargetDifficulty p.ability_level p.momentum s := by
  have htr : pyTruncR (p.ability_level * 4) = ⌊p.ability_level * 4⌋ :=
    if_pos (by positivity)
  have hb0 : 0 ≤ ⌊p.ability_level * 4⌋ := Int.floor_nonneg.mpr (by positivity)
  have hb4 : ⌊p.ability_level * 4⌋ ≤ 4 := by
    have h4 : (⌊p.ability_level * 4⌋ : ℝ) ≤ 4 :=
      le_trans (Int.floor_le _) (by nlinarith)
    exact_mod_cast h4
  refine ⟨?_, ?_, ?_⟩ <;>
    · cases s <;>
        simp only [calcTargetDifficulty, claimTargetDifficulty, htr, reduceCtorEq,
          reduceIte, if_true, if_false] <;>
        first
          | omega
          | (split_ifs <;> omega)

/-- Witness for `C4_target_difficulty`: a fresh profile (ability `0.5`,
momentum `0`) under the balanced strategy. -/
theorem C4_target_difficulty_witness :
    1 ≤ calcTargetDifficulty (defaultLearnerProfile "u" "c") .balanced
    ∧ calcTargetDifficulty (defaultLearnerProfile "u" "c") .balanced ≤ 5
    ∧ calcTargetDifficulty (defaultLearnerProfile "u" "c") .balanced =
        claimTargetDifficulty (defaultLearnerProfile "u" "c").ability_level
          (defaultLearnerProfile "u" "c").momentum .balanced :=
  C4_target_difficulty (defaultLearnerProfile "u" "c") .balanced
    (by norm_num [defaultLearnerProfile]) (by norm_num [defaultLearnerProfile])
    (by norm_num [defaultLearnerProfile]) (by norm_num [defaultLearnerProfile])

/-! ## Forgetting-curve estimate (claim C8) -/

/-- The retention formula exactly as claim C8 words it:
`exp(−t / (interval × easiness / 2.5))` as a (one-decimal) percentage,
with no lower clamp on the decay constant. -/
noncomputable def claimRetention (card : ReviewCard) (t : ℤ) : ℝ :=
  roundTo1 (Real.exp (-(t : ℝ) /
    ((card.interval : ℝ) * ((card.easiness : ℝ) / 2.5))) * 100)

/-- A card whose decay constant `interval × easiness / 2.5 = 0.8` falls
below the code's clamp. -/
def lowStabilityCard : ReviewCard :=
  { card_id := "u:q", user_id := "u", question_id := "q", cert_id := "c",
    easiness := 2, interval := 1, repetitions := 3,
    next_review := none, last_review := none,
    total_reviews := 3, correct_count := 3 }

/-- One-decimal rounding is strictly monotone across a gap larger than
the rounding error. -/
theorem roundTo1_lt_of_gap (a b : ℝ) (h : 10 * b + 1 < 10 * a) :
    roundTo1 b < roundTo1 a := by
  unfold roundTo1
  have hA := abs_pythonRound_sub_le (10 * a)
  have hB := abs_pythonRound_sub_le (10 * b)
  rw [abs_le] at hA hB
  have hlt : (pythonRound (10 * b) : ℝ) < (pythonRound (10 * a) : ℝ) := by
    linarith [hA.1, hA.2, hB.1, hB.2]
  linarith

/-- The separation `1000·(e⁻⁴ − e⁻⁵) > 1` needed for the concrete
counterexample. -/
theorem exp_gap :
    10 * (Real.exp (-5) * 100) + 1 < 10 * (Real.exp (-4) * 100) := by
  have he1 : Real.exp 1 < 2.7182818286 := Real.exp_one_lt_d9
  have he2 : (2.7182818283 : ℝ) < Real.exp 1 := Real.exp_one_gt_d9
  have hp : (0 : ℝ) < Real.exp 1 := Real.exp_pos 1
  have h4 : Real.exp (4 : ℝ) = Real.exp 1 ^ (4 : ℕ) := by
    rw [← Real.exp_nat_mul]
    norm_num
  have h5 : Real.exp (5 : ℝ) = Real.exp 1 ^ (5 : ℕ) := by
    rw [← Real.exp_nat_mul]
    norm_num
  have e4pos : (0 : ℝ) < Real.exp 1 ^ (4 : ℕ) := by positivity
  have e5pos : (0 : ℝ) < Real.exp 1 ^ (5 : ℕ) := by positivity
  have l4 : Real.exp 1 ^ (4 : ℕ) < 55 :=
    lt_trans (pow_lt_pow_left he1 hp.le (by norm_num)) (by norm_num)
  have g4 : (54 : ℝ) < Real.exp 1 ^ (4 : ℕ) :=
    lt_trans (by norm_num) (pow_lt_pow_left he2 (by norm_num) (by norm_num))
  have l5 : Real.exp 1 ^ (5 : ℕ) < 149 :=
    lt_trans (pow_lt_pow_left he1 hp.le (by norm_num)) (by norm_num)
  have g5 : (148 : ℝ) < Real.exp 1 ^ (5 : ℕ) :=
    lt_trans (by norm_num) (pow_lt_pow_left he2 (by norm_num) (by norm_num))
  have hinv : (Real.exp 1 ^ (5 : ℕ))⁻¹ < (Real.exp 1 ^ (4 : ℕ))⁻¹ - 1 / 1000 := by
    rw [inv_lt_iff_one_lt_mul₀ e5pos]
    have hi4 : (1 : ℝ) / 55 < (Real.exp 1 ^ (4 : ℕ))⁻¹ := by
      rw [lt_inv_comm₀ (by norm_num) e4pos]
      simpa using l4
    nlinarith
  rw [Real.exp_neg, Real.exp_neg]
  have h4i : Real.exp (-(4 : ℝ)) = (Real.exp 1 ^ (4 : ℕ))⁻¹ := by
    rw [Real.exp_neg, h4]
  have h5i : Real.exp (-(5 : ℝ)) = (Real.exp 1 ^ (5 : ℕ))⁻¹ := by
    rw [Real.exp_neg, h5]
  rw [show ((-5 : ℝ)) = -(5 : ℝ) by norm_num] at *
  rw [h4, h5]
  nlinarith [hinv]

/-- Claim C8 is false as stated: `predict_retention` clamps the decay
constant `interval × easiness / 2.5` up to `1`.  On a card with
`interval = 1`, `easiness = 2`, at `t = 4` days, the code computes
`round(exp(−4) · 100, 1) ≈ 36.8`, while the claimed formula gives
`round(exp(−4/0.8) · 100, 1) = round(exp(−5) · 100, 1) ≈ 0.7`. -/
theorem C8_counterexample :
    predictRetention lowStabilityCard 4 ≠ claimRetention lowStabilityCard 4 := by
  have hcode : predictRetention lowStabilityCard 4 =
      roundTo1 (Real.exp (-4) * 100) := by
    unfold predictRetention lowStabilityCard
    rw [if_neg (by norm_num)]
    norm_num
  have hclaim : claimRetention lowStabilityCard 4 =
      roundTo1 (Real.exp (-5) * 100) := by
    unfold claimRetention lowStabilityCard
    norm_num
  rw [hcode, hclaim]
  exact (roundTo1_lt_of_gap _ _ exp_gap).ne'

/-- Claim C8 (amended): for a card with positive interval and
`interval × easiness ≥ 2.5` (so the clamp is inactive), the read-only
estimate equals `exp(−t / (interval × easiness / 2.5))` as a one-decimal
percentage; below that product the code clamps the decay constant up to
one day.  The function reads the card and mutates nothing. -/
theorem C8_retention_formula (card : ReviewCard) (t : ℤ)
    (hpos : 0 < card.interval) (ht : 0 ≤ t)
    (hde : (5 / 2 : ℚ) ≤ (card.interval : ℚ) * card.easiness) :
    predictRetention card t = claimRetention card t := by
  unfold predictRetention claimRetention
  rw [if_neg (by omega)]
  have hde2 : ((5 / 2 : ℚ) : ℝ) ≤ (((card.interval : ℚ) * card.easiness : ℚ) : ℝ) :=
    Rat.cast_le.mpr hde
  push_cast at hde2
  have hX : (1 : ℝ) ≤ (card.interval : ℝ) * ((card.easiness : ℝ) / 2.5) := by
    have hsplit : (card.interval : ℝ) * ((card.easiness : ℝ) / 2.5)
        = ((card.interval : ℝ) * (card.easiness : ℝ)) / 2.5 := by ring
    rw [hsplit, le_div_iff (by norm_num)]
    linarith
  rw [max_eq_left hX]

/-- Witness for `C8_retention_formula`: a fresh card (interval 1,
easiness 2.5) three days after review. -/
theorem C8_retention_formula_witness :
    predictRetention (freshCard "u" "q" "c" 0) 3 =
      claimRetention (freshCard "u" "q" "c" 0) 3 :=
  C8_retention_formula (freshCard "u" "q" "c" 0) 3
    (by norm_num [freshCard]) (by norm_num)
    (by norm_num [freshCard])

end BeidouEdu
